import Mathlib

/-!
Shallow embedding of the time-tracking domain service of `timetracking`
(`timetracking/service.go`) over its storage abstraction
(`storage/storage.go`, PostgreSQL adapter in `posgresql`).

Modelling conventions:
* `time.Time` and `time.Duration` are embedded as `Int` (nanoseconds);
  the Go zero time (`time.Time{}`) is the integer `0`.
* A stored row is embedded as a typed record matching the columns of the
  migration (`000002_users_and_tasks.up.sql`).  Columns that the service
  only ever reads through `get[...]` (which yields the zero value for a
  NULL or missing column) are folded to that zero value in the record
  itself; `work_from`, the one nullable column the service writes NULL to
  and branches on, is kept as `Option Int` and defaulted at entity
  mapping exactly like `get[time.Time]`.
* The store (`Storage.Select`) may surface "zero rows" either eagerly as
  the distinguished no-rows error or lazily as an empty cursor (the
  spec permits both; the pgx adapter is the lazy one).  The flag
  `DB.eager` selects the behaviour.  A backend failure is injected with
  `DB.fault`, standing for the connection/query failures the adapter
  propagates.
* `errors.As(err, sql.ErrNoRows)` in `service.go` is embedded as the
  intended test "err is the no-rows error".  (As written the Go call
  would itself blow up at run time for any non-nil `err`, because
  `sql.ErrNoRows` is not a pointer to a type implementing `error`; the
  embedding keeps the branch semantics the code plainly intends and the
  spec describes.)
* `time.Now().UTC()` is passed in as an explicit `now : Int` parameter.
* A Go run-time panic (index out of range on `user[0]` / `task[0]`) is
  the `Res.crash` outcome.
-/

namespace Timetracking

/-- Row of the `users` collection; the entity mapping in
`FindUsersByFilter` copies every column field-for-field into the `User`
struct, so one structure serves as both record and entity. -/
structure User where
  id : Int
  pasport_series : String
  pasport_number : String
  surname : String := ""
  name : String := ""
  patronymic : String := ""
  address : String := ""
deriving Repr, DecidableEq

/-- Row of the `tasks` collection (see the migration).  `work_from` is
the nullable session-start timestamp. -/
structure TaskRecord where
  id : Int
  title : String := ""
  description : String := ""
  period_from : Int := 0
  period_to : Int := 0
  user_id : Int := 0
  cost : Int := 0
  work_from : Option Int := none
deriving Repr, DecidableEq

/-- The `Task` entity as built by `FindTasksByFilter`:
`WorkFrom` comes from `get[time.Time](record.Fields, "work_from")`,
which yields the zero time when the column is NULL. -/
structure Task where
  id : Int
  title : String
  description : String
  periodFrom : Int
  periodTo : Int
  userId : Int
  cost : Int
  workFrom : Int
deriving Repr, DecidableEq

/-- Entity mapping `Record → Task` performed inside `FindTasksByFilter`. -/
def Task.ofRecord (r : TaskRecord) : Task :=
  { id := r.id
    title := r.title
    description := r.description
    periodFrom := r.period_from
    periodTo := r.period_to
    userId := r.user_id
    cost := r.cost
    workFrom := r.work_from.getD 0 }

/-- State of the backing store plus the two environment choices the
storage contract leaves open (eager vs. lazy zero-rows reporting, and
an injected backend failure). -/
structure DB where
  users : List User
  tasks : List TaskRecord
  nextId : Int := 1
  fault : Option String := none
  eager : Bool := true
deriving Repr, DecidableEq

/-- Errors surfaced by the `Storage` interface. -/
inductive StoreErr where
  | noRows
  | failure (msg : String)
deriving Repr, DecidableEq

/-- Errors returned by the domain service: `ErrInternal`,
`sql.ErrNoRows`, `errors.Join(ErrStorage, err)`, `fmt.Errorf` business
errors, and the `InvalidError` kind of the error taxonomy. -/
inductive SvcErr where
  | internal
  | noRows
  | storage (msg : String)
  | business (msg : String)
  | invalid (msg : String)
deriving Repr, DecidableEq

/-- Outcome of a service operation: a value, a returned error, or a Go
run-time panic (out-of-bounds slice index). -/
inductive Res (α : Type) where
  | ok (val : α)
  | err (e : SvcErr)
  | crash
deriving Repr, DecidableEq

/-- Pagination as built by goqu: `OFFSET offset`, and `LIMIT limit`
where `limit = 0` leaves the result unbounded. -/
def paginate (rows : List α) (limit offset : Nat) : List α :=
  let r := rows.drop offset
  if limit = 0 then r else r.take limit

/-- Equality filter `{pasport_series: series, pasport_number: number}`. -/
def userMatches (series number : String) (u : User) : Bool :=
  u.pasport_series == series && u.pasport_number == number

/-- The two task filters the service builds: `{id: taskId}` and
`{user_id: userId}`. -/
inductive TaskFilter where
  | byId (taskId : Int)
  | byUserId (userId : Int)
deriving Repr, DecidableEq

def taskMatches : TaskFilter → TaskRecord → Bool
  | .byId i, t => t.id == i
  | .byUserId u, t => t.user_id == u

/-- `Storage.Select` on the `users` collection. -/
def selectUsers (db : DB) (series number : String) (limit offset : Nat) :
    Except StoreErr (List User) :=
  match db.fault with
  | some m => .error (.failure m)
  | none =>
    if (paginate (db.users.filter (userMatches series number)) limit offset).isEmpty
        && db.eager
    then .error .noRows
    else .ok (paginate (db.users.filter (userMatches series number)) limit offset)

/-- `Storage.Select` on the `tasks` collection. -/
def selectTasks (db : DB) (f : TaskFilter) (limit offset : Nat) :
    Except StoreErr (List TaskRecord) :=
  match db.fault with
  | some m => .error (.failure m)
  | none =>
    if (paginate (db.tasks.filter (taskMatches f)) limit offset).isEmpty && db.eager
    then .error .noRows
    else .ok (paginate (db.tasks.filter (taskMatches f)) limit offset)

/-- `Storage.Update` on `tasks`: partial field assignment applied to
every row matching the filter. -/
def updateTasks (db : DB) (f : TaskFilter) (g : TaskRecord → TaskRecord) : DB :=
  { db with tasks := db.tasks.map (fun t => if taskMatches f t then g t else t) }

/-- `Storage.Update` on `users` with the passport filter. -/
def updateUsers (db : DB) (series number : String) (g : User → User) : DB :=
  { db with users := db.users.map (fun u => if userMatches series number u then g u else u) }

/-- `Storage.Delete` on `users`: single-row delete by identifier. -/
def deleteUserRow (db : DB) (uid : Int) : DB :=
  { db with users := db.users.filter (fun u => !(u.id == uid)) }

/-- `Storage.Insert` on `users` with only the two passport columns
populated; returns the generated identifier. -/
def insertUser (db : DB) (series number : String) : DB × Int :=
  ({ db with
      users := db.users ++ [{ id := db.nextId
                              pasport_series := series
                              pasport_number := number }]
      nextId := db.nextId + 1 },
   db.nextId)

/-! Go duration formatting (`time.Duration.String`) and truncation, as
used by `CalculateCostByUser` via `fmt.Sprintf("%d-%v", record.Id,
time.Duration(...).Truncate(time.Second))`. -/

/-- Go `d.Truncate(time.Second)`: round toward zero to a multiple of a
second (`%` in Go truncates toward zero, i.e. `Int.tmod`). -/
def durTruncateSecond (d : Int) : Int :=
  d - Int.tmod d 1000000000

def padLeftZeros (s : List Char) (n : Nat) : List Char :=
  List.replicate (n - s.length) '0' ++ s

def dropTrailingZeros (s : List Char) : List Char :=
  (s.reverse.dropWhile (· = '0')).reverse

/-- Go's `fmtFrac`: the last `prec` decimal digits of `v` as a fraction
with trailing zeros (and an all-zero fraction's decimal point) omitted,
together with the remaining value `v / 10^prec`. -/
def goFrac (v prec : Nat) : List Char × Nat :=
  let digits := dropTrailingZeros (padLeftZeros (Nat.toDigits 10 (v % 10 ^ prec)) prec)
  (if digits.isEmpty then [] else '.' :: digits, v / 10 ^ prec)

/-- Go's `time.Duration.String` on a duration of `d` nanoseconds. -/
def goDurationString (d : Int) : String :=
  let u := d.natAbs
  let sign := if d < 0 then "-" else ""
  if u < 1000000000 then
    if u = 0 then "0s"
    else
      let up : String × Nat :=
        if u < 1000 then ("ns", 0)
        else if u < 1000000 then ("µs", 3)
        else ("ms", 6)
      let fv := goFrac u up.2
      sign ++ toString fv.2 ++ String.mk fv.1 ++ up.1
  else
    let fv := goFrac u 9
    let secPart := toString (fv.2 % 60) ++ String.mk fv.1 ++ "s"
    let mins := fv.2 / 60
    if mins = 0 then sign ++ secPart
    else
      let minPart := toString (mins % 60) ++ "m"
      let hours := mins / 60
      if hours = 0 then sign ++ minPart ++ secPart
      else sign ++ toString hours ++ "h" ++ minPart ++ secPart

/-! The cost strings of `CalculateCostByUser` and their ordering. -/

/-- One emitted record: `fmt.Sprintf("%d-%v", record.Id, cost)`. -/
def costEntry (t : TaskRecord) : String :=
  toString t.id ++ "-" ++ goDurationString (durTruncateSecond t.cost)

/-- The overlap filter: a task is skipped (`continue`) when
`periodTo.Before(begin) || periodFrom.After(end)`. -/
def keepTask (beginT endT : Int) (t : TaskRecord) : Bool :=
  !(decide (t.period_to < beginT) || decide (t.period_from > endT))

/-- Byte-wise lexicographic `<` on Go strings, over the code points of
the embedded string (identical to the byte order on the ASCII strings
compared here). -/
def charListLt : List Char → List Char → Bool
  | [], [] => false
  | [], _ :: _ => true
  | _ :: _, [] => false
  | a :: as, b :: bs =>
    if a.toNat < b.toNat then true
    else if b.toNat < a.toNat then false
    else charListLt as bs

/-- Go `strings.Split` with a one-character separator. -/
def splitOnChar (c : Char) : List Char → List (List Char)
  | [] => [[]]
  | x :: xs =>
    if x = c then [] :: splitOnChar c xs
    else
      match splitOnChar c xs with
      | h :: t => (x :: h) :: t
      | [] => [[x]]

/-- The sort key `strings.Split(cost, "-")[1]` of an emitted record. -/
def costKey (s : String) : List Char :=
  ((splitOnChar '-' s.data).drop 1).headD []

/-- The comparator passed to `sort.Slice`:
`less(i, j) = costI[1] > costJ[1]` (string comparison). -/
def costLess (a b : String) : Bool :=
  charListLt (costKey b) (costKey a)

/-- The ordering a list sorted by `sort.Slice` satisfies: an element may
precede another when it is not strictly greater under the comparator
read backwards, i.e. `¬ less(b, a)`. -/
def costOrder (a b : String) : Prop :=
  costLess b a = false

instance : DecidableRel costOrder :=
  fun _ _ => inferInstanceAs (Decidable (_ = false))

/-- The `sort.Slice` call of `CalculateCostByUser`, determinised as a
stable sort with respect to its comparator (`sort.Slice` promises a
sorted permutation; the order of comparator-equal entries is
unspecified). -/
def sortCosts (costs : List String) : List String :=
  List.insertionSort costOrder costs

/-! The domain service.  Each operation takes the `storage` the service
was constructed with (`none` embeds a nil storage, answered by
`ErrInternal`).  Mutating operations return the final store state
alongside the result; every early return leaves the state unchanged. -/

/-- `TimeTrackingService.FindUsersByFilter` (with the passport filter,
the only filter shape the service's own call sites build). -/
def FindUsersByFilter (storage : Option DB) (series number : String)
    (limit offset : Nat) : Except SvcErr (List User) :=
  match storage with
  | none => .error .internal
  | some db =>
    match selectUsers db series number limit offset with
    | .error .noRows => .error .noRows
    | .error (.failure m) => .error (.storage m)
    | .ok rows => .ok rows

/-- `TimeTrackingService.FindTasksByFilter`. -/
def FindTasksByFilter (storage : Option DB) (f : TaskFilter)
    (limit offset : Nat) : Except SvcErr (List Task) :=
  match storage with
  | none => .error .internal
  | some db =>
    match selectTasks db f limit offset with
    | .error .noRows => .error .noRows
    | .error (.failure m) => .error (.storage m)
    | .ok rows => .ok (rows.map Task.ofRecord)

/-- `TimeTrackingService.CalculateCostByUser`. -/
def CalculateCostByUser (storage : Option DB) (series number : String)
    (beginT endT : Int) : Res (List String) :=
  match storage with
  | none => .err .internal
  | some db =>
    match FindUsersByFilter storage series number 1 0 with
    | .error e => .err e
    | .ok [] => .crash
    | .ok (user :: _) =>
      match selectTasks db (.byUserId user.id) 0 0 with
      | .error .noRows => .ok []
      | .error (.failure m) => .err (.storage m)
      | .ok recs =>
        .ok (sortCosts ((recs.filter (keepTask beginT endT)).map costEntry))

/-- `TimeTrackingService.BeginTaskForUser`.  Note there is no
`len(task) == 0` guard before `task[0]` here, unlike `EndTaskForUser`. -/
def BeginTaskForUser (storage : Option DB) (series number : String)
    (taskId : Int) (now : Int) : Res Unit × Option DB :=
  match storage with
  | none => (.err .internal, storage)
  | some db =>
    match FindUsersByFilter storage series number 1 0 with
    | .error e => (.err e, storage)
    | .ok [] => (.crash, storage)
    | .ok (user :: _) =>
      match FindTasksByFilter storage (.byId taskId) 1 0 with
      | .error e => (.err e, storage)
      | .ok [] => (.crash, storage)
      | .ok (task :: _) =>
        if task.workFrom ≠ 0 then
          (.err (.business "task already started"), storage)
        else
          (.ok (), some (updateTasks db (.byId taskId)
            (fun t => { t with work_from := some now, user_id := user.id })))

/-- `TimeTrackingService.EndTaskForUser`. -/
def EndTaskForUser (storage : Option DB) (series number : String)
    (taskId : Int) (now : Int) : Res Unit × Option DB :=
  match storage with
  | none => (.err .internal, storage)
  | some db =>
    match FindUsersByFilter storage series number 1 0 with
    | .error e => (.err e, storage)
    | .ok [] => (.crash, storage)
    | .ok (_user :: _) =>
      match FindTasksByFilter storage (.byId taskId) 1 0 with
      | .error e => (.err e, storage)
      | .ok [] => (.err (.business "task not found"), storage)
      | .ok (task :: _) =>
        if task.workFrom = 0 then
          (.err (.business "task not started"), storage)
        else
          (.ok (), some (updateTasks db (.byId taskId)
            (fun t => { t with cost := task.cost + (now - task.workFrom)
                               work_from := none })))

/-- `TimeTrackingService.DeleteUser`. -/
def DeleteUser (storage : Option DB) (series number : String) :
    Res Unit × Option DB :=
  match storage with
  | none => (.err .internal, storage)
  | some db =>
    match FindUsersByFilter storage series number 1 0 with
    | .error e => (.err e, storage)
    | .ok [] => (.crash, storage)
    | .ok (user :: _) => (.ok (), some (deleteUserRow db user.id))

/-- `TimeTrackingService.UpdateInfoUser`; the caller-supplied column map
is abstracted as the row transformation it performs. -/
def UpdateInfoUser (storage : Option DB) (series number : String)
    (info : User → User) : Res Unit × Option DB :=
  match storage with
  | none => (.err .internal, storage)
  | some db =>
    match FindUsersByFilter storage series number 1 0 with
    | .error e => (.err e, storage)
    | .ok [] => (.crash, storage)
    | .ok (_user :: _) => (.ok (), some (updateUsers db series number info))

/-- `TimeTrackingService.CreateUser`.  Faithful to the source's error
branch: when the lookup fails with anything other than the no-rows
error, the method returns `0, sql.ErrNoRows`. -/
def CreateUser (storage : Option DB) (series number : String) :
    Res Int × Option DB :=
  match storage with
  | none => (.err .internal, storage)
  | some db =>
    match FindUsersByFilter storage series number 1 0 with
    | .error .noRows =>
      let r := insertUser db series number
      (.ok r.2, some r.1)
    | .error _ => (.err .noRows, storage)
    | .ok [] =>
      let r := insertUser db series number
      (.ok r.2, some r.1)
    | .ok (user :: _) => (.ok user.id, storage)

/-- Modelled from the spec: `FindUserByPassport` is called by the
repository's revised handler file but its definition is not among the
given sources.  Per the spec it "fails `Invalid` if either string is
empty; fails `NotFound` if zero matching rows; otherwise returns the
single match (queries with limit 1)". -/
def FindUserByPassport (storage : Option DB) (series number : String) :
    Except SvcErr User :=
  if series = "" ∨ number = "" then .error (.invalid "invalid passport")
  else
    match FindUsersByFilter storage series number 1 0 with
    | .error e => .error e
    | .ok [] => .error .noRows
    | .ok (u :: _) => .ok u

/-- Discriminator for the `Invalid` error kind. -/
def SvcErr.isInvalid : SvcErr → Bool
  | .invalid _ => true
  | _ => false

/-! Basic lemmas about the embedding. -/

theorem paginate_zero (l : List α) : paginate l 0 0 = l := by
  simp [paginate]

theorem mem_of_mem_paginate {l : List α} {x : α} {lim off : Nat}
    (h : x ∈ paginate l lim off) : x ∈ l := by
  unfold paginate at h
  split at h
  · exact List.mem_of_mem_drop h
  · exact List.mem_of_mem_drop (List.mem_of_mem_take h)

theorem charListLt_asymm :
    ∀ x y, charListLt x y = true → charListLt y x = false := by
  intro x
  induction x with
  | nil =>
    intro y h
    cases y with
    | nil => simp [charListLt] at h
    | cons b bs => simp [charListLt]
  | cons a as ih =>
    intro y h
    cases y with
    | nil => simp [charListLt] at h
    | cons b bs =>
      simp only [charListLt] at h ⊢
      by_cases hab : a.toNat < b.toNat
      · have hba : ¬ b.toNat < a.toNat := by omega
        simp [hab, hba]
      · by_cases hba : b.toNat < a.toNat
        · simp [hab, hba] at h
        · simp [hab, hba] at h ⊢
          exact ih bs h

theorem charListLt_false_trans :
    ∀ x y z, charListLt x y = false → charListLt y z = false →
      charListLt x z = false := by
  intro x
  induction x with
  | nil =>
    intro y z hxy hyz
    cases y with
    | nil =>
      cases z with
      | nil => simp [charListLt]
      | cons c cs => exact hyz
    | cons b bs => simp [charListLt] at hxy
  | cons a as ih =>
    intro y z hxy hyz
    cases y with
    | nil =>
      cases z with
      | nil => simp [charListLt]
      | cons c cs => simp [charListLt] at hyz
    | cons b bs =>
      cases z with
      | nil => simp [charListLt]
      | cons c cs =>
        simp only [charListLt] at hxy hyz ⊢
        by_cases hab : a.toNat < b.toNat
        · simp [hab] at hxy
        · by_cases hbc : b.toNat < c.toNat
          · simp [hbc] at hyz
          · by_cases hac : a.toNat < c.toNat
            · omega
            · by_cases hca : c.toNat < a.toNat
              · simp [hac, hca]
              · have hba : ¬ b.toNat < a.toNat := by omega
                have hcb : ¬ c.toNat < b.toNat := by omega
                simp [hab, hba] at hxy
                simp [hbc, hcb] at hyz
                simp [hac, hca]
                exact ih bs cs hxy hyz

instance : IsTotal String costOrder := by
  constructor
  intro a b
  by_cases h : charListLt (costKey a) (costKey b) = true
  · right
    exact charListLt_asymm _ _ h
  · left
    simpa [costOrder, costLess] using h

instance : IsTrans String costOrder := by
  constructor
  intro a b c hab hbc
  exact charListLt_false_trans _ _ _ hab hbc

theorem mem_sortCosts {x : String} {l : List String} :
    x ∈ sortCosts l ↔ x ∈ l :=
  (List.perm_insertionSort costOrder l).mem_iff

theorem sortCosts_sorted (l : List String) :
    (sortCosts l).Pairwise costOrder :=
  List.sorted_insertionSort costOrder l

theorem selectTasks_ok_mem {db : DB} {f : TaskFilter} {lim off : Nat}
    {rows : List TaskRecord}
    (h : selectTasks db f lim off = .ok rows) :
    ∀ t ∈ rows, t ∈ db.tasks ∧ taskMatches f t = true := by
  unfold selectTasks at h
  split at h
  · exact absurd h (by simp)
  · split at h
    · exact absurd h (by simp)
    · rw [Except.ok.injEq] at h
      subst h
      intro t ht
      exact List.mem_filter.mp (mem_of_mem_paginate ht)

theorem selectUsers_ok_eager_ne_nil {db : DB} {s n : String} {lim off : Nat}
    {rows : List User}
    (he : db.eager = true) (h : selectUsers db s n lim off = .ok rows) :
    rows ≠ [] := by
  unfold selectUsers at h
  split at h
  · exact absurd h (by simp)
  · split at h
    · exact absurd h (by simp)
    · next hcond =>
      rw [Except.ok.injEq] at h
      subst h
      intro hnil
      exact hcond (by simp [hnil, he])

theorem selectTasks_unpaginated (db : DB) (f : TaskFilter)
    (hf : db.fault = none) :
    selectTasks db f 0 0 =
      if (db.tasks.filter (taskMatches f)).isEmpty && db.eager
      then .error .noRows
      else .ok (db.tasks.filter (taskMatches f)) := by
  unfold selectTasks
  rw [hf]
  simp only [paginate_zero]

theorem findTasksByFilter_ok_head {db : DB} {f : TaskFilter} {lim off : Nat}
    {t : Task} {ts : List Task}
    (h : FindTasksByFilter (some db) f lim off = .ok (t :: ts)) :
    ∃ r, r ∈ db.tasks ∧ taskMatches f r = true ∧ t = Task.ofRecord r := by
  unfold FindTasksByFilter at h
  dsimp only at h
  cases hsel : selectTasks db f lim off with
  | error e =>
    rw [hsel] at h
    cases e <;> simp at h
  | ok rows =>
    rw [hsel] at h
    dsimp only at h
    rw [Except.ok.injEq] at h
    obtain ⟨r, l1, hrows, hfr, -⟩ := List.map_eq_cons_iff.mp h
    subst hrows
    obtain ⟨hmem, hmatch⟩ := selectTasks_ok_mem hsel r (by simp)
    exact ⟨r, hmem, hmatch, hfr.symm⟩

/-- C1.  Per-task state machine: a task state is exactly one of Idle
(`workFrom` is the unset/zero value) or Active; a successful
`BeginTaskForUser` is the Idle-to-Active transition (it stamps
`work_from` on the rows matching the task id, writes no `cost`
anywhere, and its pre-state had the matching task Idle); a successful
`EndTaskForUser` is the Active-to-Idle transition (it clears
`work_from` on the matching rows and its pre-state had the matching
task Active); and no other domain-service operation (`CreateUser`,
`DeleteUser`, `UpdateInfoUser`; the Find and Calculate operations
return no state at all) writes any task row, in particular neither
`work_from` nor `cost`. -/
theorem task_state_machine :
    (∀ t : Task, (t.workFrom = 0 ∨ t.workFrom ≠ 0) ∧
      ¬ (t.workFrom = 0 ∧ t.workFrom ≠ 0)) ∧
    (∀ db s n tid now db',
      BeginTaskForUser (some db) s n tid now = (.ok (), some db') →
      (∃ uid, db'.tasks = db.tasks.map (fun r =>
          if taskMatches (.byId tid) r
          then { r with work_from := some now, user_id := uid } else r)) ∧
      db'.tasks.map TaskRecord.cost = db.tasks.map TaskRecord.cost ∧
      (∃ r, r ∈ db.tasks ∧ taskMatches (.byId tid) r = true ∧
        r.work_from.getD 0 = 0)) ∧
    (∀ db s n tid now db',
      EndTaskForUser (some db) s n tid now = (.ok (), some db') →
      (∃ c, db'.tasks = db.tasks.map (fun r =>
          if taskMatches (.byId tid) r
          then { r with cost := c, work_from := none } else r)) ∧
      (∃ r, r ∈ db.tasks ∧ taskMatches (.byId tid) r = true ∧
        r.work_from.getD 0 ≠ 0)) ∧
    (∀ db s n r st, CreateUser (some db) s n = (r, st) →
      ∀ db2, st = some db2 → db2.tasks = db.tasks) ∧
    (∀ db s n r st, DeleteUser (some db) s n = (r, st) →
      ∀ db2, st = some db2 → db2.tasks = db.tasks) ∧
    (∀ db s n g r st, UpdateInfoUser (some db) s n g = (r, st) →
      ∀ db2, st = some db2 → db2.tasks = db.tasks) := by
  refine ⟨fun t => ⟨Classical.em _, fun hc => hc.2 hc.1⟩, ?_, ?_, ?_, ?_, ?_⟩
  · intro db s n tid now db' h
    unfold BeginTaskForUser at h
    dsimp only at h
    cases hu : FindUsersByFilter (some db) s n 1 0 with
    | error e' => rw [hu] at h; dsimp only at h; exact absurd h (by simp)
    | ok users =>
      cases users with
      | nil => rw [hu] at h; dsimp only at h; exact absurd h (by simp)
      | cons u us =>
        rw [hu] at h
        dsimp only at h
        cases ht : FindTasksByFilter (some db) (.byId tid) 1 0 with
        | error e' => rw [ht] at h; dsimp only at h; exact absurd h (by simp)
        | ok tasks =>
          cases tasks with
          | nil => rw [ht] at h; dsimp only at h; exact absurd h (by simp)
          | cons task ts =>
            rw [ht] at h
            dsimp only at h
            split at h
            · exact absurd h (by simp)
            · next hw =>
              rw [Prod.mk.injEq, Option.some.injEq] at h
              obtain ⟨-, hdb⟩ := h
              subst hdb
              refine ⟨⟨u.id, rfl⟩, ?_, ?_⟩
              · show (db.tasks.map _).map TaskRecord.cost = _
                rw [List.map_map]
                refine List.map_congr_left (fun r _ => ?_)
                by_cases hm : taskMatches (.byId tid) r = true <;> simp [hm]
              · obtain ⟨r, hmem, hmatch, hrec⟩ := findTasksByFilter_ok_head ht
                refine ⟨r, hmem, hmatch, ?_⟩
                have : task.workFrom = 0 := by omega
                rw [hrec] at this
                exact this
  · intro db s n tid now db' h
    unfold EndTaskForUser at h
    dsimp only at h
    cases hu : FindUsersByFilter (some db) s n 1 0 with
    | error e' => rw [hu] at h; dsimp only at h; exact absurd h (by simp)
    | ok users =>
      cases users with
      | nil => rw [hu] at h; dsimp only at h; exact absurd h (by simp)
      | cons u us =>
        rw [hu] at h
        dsimp only at h
        cases ht : FindTasksByFilter (some db) (.byId tid) 1 0 with
        | error e' => rw [ht] at h; dsimp only at h; exact absurd h (by simp)
        | ok tasks =>
          cases tasks with
          | nil => rw [ht] at h; dsimp only at h; exact absurd h (by simp)
          | cons task ts =>
            rw [ht] at h
            dsimp only at h
            split at h
            · exact absurd h (by simp)
            · next hw =>
              rw [Prod.mk.injEq, Option.some.injEq] at h
              obtain ⟨-, hdb⟩ := h
              subst hdb
              refine ⟨⟨task.cost + (now - task.workFrom), rfl⟩, ?_⟩
              obtain ⟨r, hmem, hmatch, hrec⟩ := findTasksByFilter_ok_head ht
              refine ⟨r, hmem, hmatch, ?_⟩
              have hx : task.workFrom ≠ 0 := hw
              rw [hrec] at hx
              exact hx
  · intro db s n r st h db2 hst
    unfold CreateUser at h
    dsimp only at h
    cases hu : FindUsersByFilter (some db) s n 1 0 with
    | error e' =>
      rw [hu] at h
      cases e'
      case noRows =>
        dsimp only at h
        rw [Prod.mk.injEq] at h
        rw [← h.2, Option.some.injEq] at hst
        rw [← hst]
        rfl
      all_goals
        (dsimp only at h
         rw [Prod.mk.injEq] at h
         rw [← h.2, Option.some.injEq] at hst
         rw [← hst])
    | ok users =>
      cases users with
      | nil =>
        rw [hu] at h
        dsimp only at h
        rw [Prod.mk.injEq] at h
        rw [← h.2, Option.some.injEq] at hst
        rw [← hst]
        rfl
      | cons u us =>
        rw [hu] at h
        dsimp only at h
        rw [Prod.mk.injEq] at h
        rw [← h.2, Option.some.injEq] at hst
        rw [← hst]
  · intro db s n r st h db2 hst
    unfold DeleteUser at h
    dsimp only at h
    cases hu : FindUsersByFilter (some db) s n 1 0 with
    | error e' =>
      rw [hu] at h
      dsimp only at h
      rw [Prod.mk.injEq] at h
      rw [← h.2, Option.some.injEq] at hst
      rw [← hst]
    | ok users =>
      cases users with
      | nil =>
        rw [hu] at h
        dsimp only at h
        rw [Prod.mk.injEq] at h
        rw [← h.2, Option.some.injEq] at hst
        rw [← hst]
      | cons u us =>
        rw [hu] at h
        dsimp only at h
        rw [Prod.mk.injEq] at h
        rw [← h.2, Option.some.injEq] at hst
        rw [← hst]
        rfl
  · intro db s n g r st h db2 hst
    unfold UpdateInfoUser at h
    dsimp only at h
    cases hu : FindUsersByFilter (some db) s n 1 0 with
    | error e' =>
      rw [hu] at h
      dsimp only at h
      rw [Prod.mk.injEq] at h
      rw [← h.2, Option.some.injEq] at hst
      rw [← hst]
    | ok users =>
      cases users with
      | nil =>
        rw [hu] at h
        dsimp only at h
        rw [Prod.mk.injEq] at h
        rw [← h.2, Option.some.injEq] at hst
        rw [← hst]
      | cons u us =>
        rw [hu] at h
        dsimp only at h
        rw [Prod.mk.injEq] at h
        rw [← h.2, Option.some.injEq] at hst
        rw [← hst]
        rfl

/-- C1 witness: the transition parts applied at concrete stores — a
successful begin leaves every cost unchanged, and `CreateUser` and
`DeleteUser` leave the task table untouched. -/
theorem task_state_machine_witness :
    ({ users := [{ id := 1, pasport_series := "AA", pasport_number := "1" }],
       tasks := [{ id := 5, user_id := 1, cost := 100, work_from := some 40 }] } : DB).tasks.map
        TaskRecord.cost =
      ({ users := [{ id := 1, pasport_series := "AA", pasport_number := "1" }],
         tasks := [{ id := 5, user_id := 1, cost := 100 }] } : DB).tasks.map TaskRecord.cost ∧
    ((insertUser { users := [], tasks := [{ id := 5, cost := 3 }] } "CC" "9").1).tasks =
      ({ users := [], tasks := [{ id := 5, cost := 3 }] } : DB).tasks ∧
    (deleteUserRow { users := [{ id := 1, pasport_series := "AA", pasport_number := "1" }],
                     tasks := [{ id := 5, cost := 3 }] } 1).tasks =
      ({ users := [{ id := 1, pasport_series := "AA", pasport_number := "1" }],
         tasks := [{ id := 5, cost := 3 }] } : DB).tasks := by
  refine ⟨?_, ?_, ?_⟩
  · exact (task_state_machine.2.1
      { users := [{ id := 1, pasport_series := "AA", pasport_number := "1" }],
        tasks := [{ id := 5, user_id := 1, cost := 100 }] }
      "AA" "1" 5 40 _ (by decide)).2.1
  · exact task_state_machine.2.2.2.1
      { users := [], tasks := [{ id := 5, cost := 3 }] } "CC" "9" _ _ rfl _ rfl
  · exact task_state_machine.2.2.2.2.1
      { users := [{ id := 1, pasport_series := "AA", pasport_number := "1" }],
        tasks := [{ id := 5, cost := 3 }] }
      "AA" "1" _ _ rfl _ rfl

/-- C2.  `EndTaskForUser` on an existing task: on an Idle task (the
mapped `WorkFrom` is the zero time) it returns the "task not started"
business error and leaves the store untouched; on an Active task it
succeeds and partially updates the rows matching the task id with
`cost = task.cost + (now - task.workFrom)` and `work_from = NULL`, and
that new cost is strictly larger than the old one whenever `now` is
after `workFrom`. -/
theorem endTaskForUser_spec (db : DB) (s n : String) (tid now : Int)
    (u : User) (us : List User) (t : Task) (ts : List Task)
    (hu : FindUsersByFilter (some db) s n 1 0 = .ok (u :: us))
    (ht : FindTasksByFilter (some db) (.byId tid) 1 0 = .ok (t :: ts)) :
    (t.workFrom = 0 →
      EndTaskForUser (some db) s n tid now =
        (.err (.business "task not started"), some db)) ∧
    (t.workFrom ≠ 0 →
      EndTaskForUser (some db) s n tid now =
        (.ok (), some (updateTasks db (.byId tid)
          (fun r => { r with cost := t.cost + (now - t.workFrom)
                             work_from := none }))) ∧
      (t.workFrom < now → t.cost < t.cost + (now - t.workFrom))) := by
  unfold EndTaskForUser
  rw [hu, ht]
  constructor
  · intro h
    simp [h]
  · intro h
    refine ⟨by simp [h], fun hlt => by omega⟩

/-- C2 witness: a concrete Active task ends with the expected update. -/
theorem endTaskForUser_spec_witness :
    EndTaskForUser
      (some { users := [{ id := 1, pasport_series := "AA", pasport_number := "123456" }],
              tasks := [{ id := 5, user_id := 1, cost := 100, work_from := some 40 }] })
      "AA" "123456" 5 90 =
      (.ok (), some { users := [{ id := 1, pasport_series := "AA", pasport_number := "123456" }],
                      tasks := [{ id := 5, user_id := 1, cost := 150, work_from := none }] }) ∧
    (100 : Int) < 150 := by
  have h := endTaskForUser_spec
    { users := [{ id := 1, pasport_series := "AA", pasport_number := "123456" }],
      tasks := [{ id := 5, user_id := 1, cost := 100, work_from := some 40 }] }
    "AA" "123456" 5 90
    { id := 1, pasport_series := "AA", pasport_number := "123456" } []
    (Task.ofRecord { id := 5, user_id := 1, cost := 100, work_from := some 40 }) []
    rfl rfl
  have h2 := (h.2 (by decide)).1
  refine ⟨?_, by decide⟩
  rw [h2]
  decide

/-- C7.  `BeginTaskForUser` on an existing task: if the task is already
Active it fails with the "task already started" business error and
leaves the store (hence the task's every field) unchanged; if the task
is Idle it succeeds and partially updates the rows matching the task id
with `work_from = now` and `user_id` = the resolved user's id. -/
theorem beginTaskForUser_spec (db : DB) (s n : String) (tid now : Int)
    (u : User) (us : List User) (t : Task) (ts : List Task)
    (hu : FindUsersByFilter (some db) s n 1 0 = .ok (u :: us))
    (ht : FindTasksByFilter (some db) (.byId tid) 1 0 = .ok (t :: ts)) :
    (t.workFrom ≠ 0 →
      BeginTaskForUser (some db) s n tid now =
        (.err (.business "task already started"), some db)) ∧
    (t.workFrom = 0 →
      BeginTaskForUser (some db) s n tid now =
        (.ok (), some (updateTasks db (.byId tid)
          (fun r => { r with work_from := some now, user_id := u.id })))) := by
  unfold BeginTaskForUser
  rw [hu, ht]
  constructor
  · intro h
    simp [h]
  · intro h
    simp [h]


/-- C3.  Once the user is resolved, `CalculateCostByUser` selects every
task with `user_id = user.id` (one unpaginated `Select`, limit 0 and
offset 0), and emits a record for exactly those tasks whose window
overlaps `[begin, end]` — a task is skipped if and only if
`periodTo < begin` or `periodFrom > end`; if no task overlaps, the
result is the empty list with no error. -/
theorem calculateCostByUser_spec (db : DB) (s n : String) (b e : Int)
    (u : User) (us : List User)
    (hf : db.fault = none)
    (hu : FindUsersByFilter (some db) s n 1 0 = .ok (u :: us)) :
    ∃ costs, CalculateCostByUser (some db) s n b e = .ok costs ∧
      (∀ x, x ∈ costs ↔ ∃ t, t ∈ db.tasks ∧ t.user_id = u.id ∧
          ¬ (t.period_to < b ∨ t.period_from > e) ∧ x = costEntry t) ∧
      ((∀ t ∈ db.tasks, t.user_id = u.id → t.period_to < b ∨ t.period_from > e) →
        costs = []) := by
  unfold CalculateCostByUser
  rw [hu]
  dsimp only
  rw [selectTasks_unpaginated db _ hf]
  cases hcond : (db.tasks.filter (taskMatches (.byUserId u.id))).isEmpty && db.eager with
  | true =>
    simp only [hcond, if_true]
    have hempty : db.tasks.filter (taskMatches (.byUserId u.id)) = [] :=
      List.isEmpty_iff.mp (Bool.and_elim_left hcond)
    refine ⟨[], rfl, ?_, fun _ => rfl⟩
    intro x
    simp only [List.not_mem_nil, false_iff, not_exists]
    rintro t ⟨hmem, huid, hkeep, hx⟩
    have := (List.filter_eq_nil_iff.mp hempty) t hmem
    simp [taskMatches, huid] at this
  | false =>
    rw [if_neg Bool.false_ne_true]
    refine ⟨_, rfl, ?_, ?_⟩
    · intro x
      rw [mem_sortCosts]
      constructor
      · intro hx
        obtain ⟨t, htmem, rfl⟩ := List.mem_map.mp hx
        obtain ⟨htl, hkeep⟩ := List.mem_filter.mp htmem
        obtain ⟨htask, hmatch⟩ := List.mem_filter.mp htl
        refine ⟨t, htask, by simpa [taskMatches] using hmatch, ?_, rfl⟩
        have hk : ¬ t.period_to < b ∧ ¬ t.period_from > e := by
          simpa [keepTask] using hkeep
        exact not_or.mpr hk
      · rintro ⟨t, htask, huid, hkeep, rfl⟩
        refine List.mem_map.mpr
          ⟨t, List.mem_filter.mpr ⟨List.mem_filter.mpr ⟨htask, ?_⟩, ?_⟩, rfl⟩
        · simp [taskMatches, huid]
        · have hk := not_or.mp hkeep
          simp [keepTask, hk.1, hk.2]
    · intro hall
      have hnil : (db.tasks.filter (taskMatches (.byUserId u.id))).filter (keepTask b e) = [] := by
        rw [List.filter_eq_nil_iff]
        intro t htl
        obtain ⟨htask, hmatch⟩ := List.mem_filter.mp htl
        have huid : t.user_id = u.id := by simpa [taskMatches] using hmatch
        have h2 := hall t htask huid
        simp only [keepTask, Bool.not_eq_true, Bool.not_eq_true']
        rcases h2 with h2 | h2 <;> simp [h2]
      simp [hnil, sortCosts]

/-- C3 witness: with tasks scheduled on `[10,20]`, `[25,30]` and
`[5,12]`, a query over `[1000,2000]` overlaps none of them and returns
the empty list without error. -/
theorem calculateCostByUser_spec_witness :
    CalculateCostByUser
      (some { users := [{ id := 1, pasport_series := "AA", pasport_number := "1" }],
              tasks := [{ id := 1, period_from := 10, period_to := 20, user_id := 1 },
                        { id := 2, period_from := 25, period_to := 30, user_id := 1 },
                        { id := 3, period_from := 5, period_to := 12, user_id := 1 }] })
      "AA" "1" 1000 2000 = .ok ([] : List String) := by
  obtain ⟨costs, hrun, -, hempty⟩ := calculateCostByUser_spec
    { users := [{ id := 1, pasport_series := "AA", pasport_number := "1" }],
      tasks := [{ id := 1, period_from := 10, period_to := 20, user_id := 1 },
                { id := 2, period_from := 25, period_to := 30, user_id := 1 },
                { id := 3, period_from := 5, period_to := 12, user_id := 1 }] }
    "AA" "1" 1000 2000
    { id := 1, pasport_series := "AA", pasport_number := "1" } []
    rfl rfl
  rw [hempty (by decide)] at hrun
  exact hrun

theorem findUsersByFilter_limit_one (db : DB) (s n : String)
    (hf : db.fault = none) :
    FindUsersByFilter (some db) s n 1 0 =
      match db.users.filter (userMatches s n) with
      | [] => if db.eager then .error .noRows else .ok []
      | u0 :: _ => .ok [u0] := by
  unfold FindUsersByFilter selectUsers
  dsimp only
  rw [hf]
  dsimp only
  cases hl : db.users.filter (userMatches s n) with
  | nil => cases db.eager <;> simp [paginate]
  | cons u0 rest => simp [paginate]

theorem createUser_run (db : DB) (s n : String) (hf : db.fault = none) :
    CreateUser (some db) s n =
      match db.users.filter (userMatches s n) with
      | [] => (.ok db.nextId, some (insertUser db s n).1)
      | u0 :: _ => (.ok u0.id, some db) := by
  unfold CreateUser
  rw [findUsersByFilter_limit_one db s n hf]
  cases hl : db.users.filter (userMatches s n) with
  | nil => cases db.eager <;> rfl
  | cons u0 rest => rfl

/-- C5.  `CreateUser` is an idempotent create-or-get: starting from a
store without duplicate rows for the passport pair, the first call
returns an id with some resulting store; if a row for the pair already
existed, that store is unchanged and the id is the existing row's; if
none existed, exactly the one new row carrying only the two passport
columns was inserted and the generated id returned; the second call
returns the same id and mutates nothing, and exactly one row for the
pair exists afterwards. -/
theorem createUser_idempotent (db : DB) (s n : String)
    (hf : db.fault = none)
    (hone : (db.users.filter (userMatches s n)).length ≤ 1) :
    ∃ db1 newId,
      CreateUser (some db) s n = (.ok newId, some db1) ∧
      CreateUser (some db1) s n = (.ok newId, some db1) ∧
      (db1.users.filter (userMatches s n)).length = 1 ∧
      (∀ u ∈ db.users, userMatches s n u = true → db1 = db ∧ newId = u.id) ∧
      (db.users.filter (userMatches s n) = [] →
        db1.users = db.users ++
          [{ id := db.nextId, pasport_series := s, pasport_number := n }] ∧
        newId = db.nextId) := by
  cases hl : db.users.filter (userMatches s n) with
  | nil =>
    have hnew : (insertUser db s n).1.users.filter (userMatches s n) =
        [{ id := db.nextId, pasport_series := s, pasport_number := n }] := by
      simp only [insertUser, List.filter_append, hl, List.nil_append]
      simp [userMatches]
    refine ⟨(insertUser db s n).1, db.nextId, ?_, ?_, ?_, ?_, ?_⟩
    · rw [createUser_run db s n hf, hl]
    · rw [createUser_run _ s n (by simpa [insertUser] using hf), hnew]
    · rw [hnew]
      rfl
    · intro u hu hm
      exact absurd hm (by simpa using List.filter_eq_nil_iff.mp hl u hu)
    · exact fun _ => ⟨rfl, rfl⟩
  | cons u0 rest =>
    have hrest : rest = [] := by
      rw [hl] at hone
      simpa using hone
    subst hrest
    refine ⟨db, u0.id, ?_, ?_, ?_, ?_, ?_⟩
    · rw [createUser_run db s n hf, hl]
    · rw [createUser_run db s n hf, hl]
    · rw [hl]
      rfl
    · intro u hu hm
      have : u ∈ db.users.filter (userMatches s n) := List.mem_filter.mpr ⟨hu, hm⟩
      rw [hl] at this
      simp only [List.mem_singleton] at this
      exact ⟨rfl, by rw [this]⟩
    · intro hnil
      simp at hnil

/-- C5 witness: with the single existing row for the pair, a repeated
`CreateUser` returns that row's id and leaves the store unchanged. -/
theorem createUser_idempotent_witness :
    CreateUser
      (some { users := [{ id := 3, pasport_series := "AA", pasport_number := "1" }],
              tasks := [], nextId := 4 })
      "AA" "1" =
      (.ok 3,
       some { users := [{ id := 3, pasport_series := "AA", pasport_number := "1" }],
              tasks := [], nextId := 4 }) := by
  obtain ⟨db1, newId, h1, h2, h3, h4, h5⟩ := createUser_idempotent
    { users := [{ id := 3, pasport_series := "AA", pasport_number := "1" }],
      tasks := [], nextId := 4 }
    "AA" "1" rfl (by decide)
  obtain ⟨hdb, hid⟩ := h4
    { id := 3, pasport_series := "AA", pasport_number := "1" }
    (by decide) (by decide)
  subst hdb
  subst hid
  exact h1

/-- C4.  Every record returned by `CalculateCostByUser` is the string
`"<taskId>-<cost truncated to whole seconds>"` for one of the stored
tasks (`%d` id, a hyphen, Go duration formatting of the truncated
cost), and the list is sorted descending by the byte-wise string
comparison of the substring after the first hyphen
(`strings.Split(entry, "-")[1]`), not by numeric duration: the closing
conjunct runs a store whose numerically smallest cost (9 minutes) is
emitted first, before 2h3m and 10m. -/
theorem calculateCostByUser_format_sort :
    (∀ db s n b e costs,
      CalculateCostByUser (some db) s n b e = .ok costs →
      (∀ x ∈ costs, ∃ t, t ∈ db.tasks ∧
          x = toString t.id ++ "-" ++ goDurationString (durTruncateSecond t.cost)) ∧
      costs.Pairwise (fun a c => charListLt (costKey a) (costKey c) = false)) ∧
    (CalculateCostByUser
        (some { users := [{ id := 1, pasport_series := "AA", pasport_number := "1" }],
                tasks := [{ id := 1, user_id := 1, cost := 600000000000 },
                          { id := 2, user_id := 1, cost := 540000000000 },
                          { id := 3, user_id := 1, cost := 7380000000000 }] })
        "AA" "1" 0 100 = .ok ["2-9m0s", "3-2h3m0s", "1-10m0s"] ∧
      (540000000000 : Int) < 7380000000000 ∧ (540000000000 : Int) < 600000000000) := by
  constructor
  · intro db s n b e costs h
    unfold CalculateCostByUser at h
    dsimp only at h
    cases hu : FindUsersByFilter (some db) s n 1 0 with
    | error e' =>
      rw [hu] at h
      dsimp only at h
      exact absurd h (by simp)
    | ok users =>
      cases users with
      | nil =>
        rw [hu] at h
        dsimp only at h
        exact absurd h (by simp)
      | cons u us =>
        rw [hu] at h
        dsimp only at h
        cases hsel : selectTasks db (.byUserId u.id) 0 0 with
        | error e' =>
          rw [hsel] at h
          cases e' with
          | noRows =>
            dsimp only at h
            rw [Res.ok.injEq] at h
            subst h
            exact ⟨by simp, by simp⟩
          | failure m =>
            dsimp only at h
            exact absurd h (by simp)
        | ok recs =>
          rw [hsel] at h
          dsimp only at h
          rw [Res.ok.injEq] at h
          subst h
          constructor
          · intro x hx
            rw [mem_sortCosts] at hx
            obtain ⟨t, htmem, rfl⟩ := List.mem_map.mp hx
            exact ⟨t, (selectTasks_ok_mem hsel t (List.mem_of_mem_filter htmem)).1, rfl⟩
          · exact sortCosts_sorted _
  · exact ⟨by decide, by decide, by decide⟩

/-- C4 witness: the ordering part applied to a concrete run; the emitted
list is descending under the lexical key comparison. -/
theorem calculateCostByUser_format_sort_witness :
    List.Pairwise (fun a c => charListLt (costKey a) (costKey c) = false)
      ["2-9m0s", "3-2h3m0s", "1-10m0s"] :=
  (calculateCostByUser_format_sort.1
    { users := [{ id := 1, pasport_series := "AA", pasport_number := "1" }],
      tasks := [{ id := 1, user_id := 1, cost := 600000000000 },
                { id := 2, user_id := 1, cost := 540000000000 },
                { id := 3, user_id := 1, cost := 7380000000000 }] }
    "AA" "1" 0 100 ["2-9m0s", "3-2h3m0s", "1-10m0s"] (by decide)).2

/-- C6.  At the failing input — the real adapter's empty-cursor store, a
resolvable user, and no task with the requested id — `BeginTaskForUser`
ends in the out-of-bounds `task[0]` panic instead of a `NotFound`
error, because it lacks the `len(task) == 0` guard that
`EndTaskForUser` performs on the same input (second conjunct). -/
theorem beginTaskForUser_missing_task_panics :
    BeginTaskForUser
      (some { users := [{ id := 1, pasport_series := "AA", pasport_number := "123456" }],
              tasks := [], eager := false })
      "AA" "123456" 7 100 =
      (.crash,
       some { users := [{ id := 1, pasport_series := "AA", pasport_number := "123456" }],
              tasks := [], eager := false }) ∧
    EndTaskForUser
      (some { users := [{ id := 1, pasport_series := "AA", pasport_number := "123456" }],
              tasks := [], eager := false })
      "AA" "123456" 7 100 =
      (.err (.business "task not found"),
       some { users := [{ id := 1, pasport_series := "AA", pasport_number := "123456" }],
              tasks := [], eager := false }) := by
  exact ⟨by decide, by decide⟩

/-- C9.  At the failing input — the users lookup inside `CreateUser`
failing with a genuine storage error (not the no-rows condition) —
`CreateUser` reports `sql.ErrNoRows` instead of a storage-failure kind,
although the same lookup surfaces the failure as the wrapped storage
kind (second conjunct), contradicting the error-propagation rule the
spec states and every sibling method follows. -/
theorem createUser_fault_reported_as_noRows :
    CreateUser
      (some { users := [], tasks := [], fault := some "connection failed" })
      "AA" "123456" =
      (.err .noRows,
       some { users := [], tasks := [], fault := some "connection failed" }) ∧
    FindUsersByFilter
      (some { users := [], tasks := [], fault := some "connection failed" })
      "AA" "123456" 1 0 = .error (.storage "connection failed") := by
  constructor
  · decide
  · rfl

/-- C7 witness: beginning an Active task fails and leaves the store
unchanged; beginning an Idle task stamps `work_from` and `user_id`. -/
theorem beginTaskForUser_spec_witness :
    BeginTaskForUser
      (some { users := [{ id := 2, pasport_series := "BB", pasport_number := "654321" }],
              tasks := [{ id := 9, user_id := 0, cost := 7, work_from := some 11 }] })
      "BB" "654321" 9 50 =
      (.err (.business "task already started"),
       some { users := [{ id := 2, pasport_series := "BB", pasport_number := "654321" }],
              tasks := [{ id := 9, user_id := 0, cost := 7, work_from := some 11 }] }) := by
  have h := beginTaskForUser_spec
    { users := [{ id := 2, pasport_series := "BB", pasport_number := "654321" }],
      tasks := [{ id := 9, user_id := 0, cost := 7, work_from := some 11 }] }
    "BB" "654321" 9 50
    { id := 2, pasport_series := "BB", pasport_number := "654321" } []
    (Task.ofRecord { id := 9, user_id := 0, cost := 7, work_from := some 11 }) []
    rfl rfl
  exact h.1 (by decide)

/-- C8 counterexample: resolving with an empty series in a `service.go`
operation (here `DeleteUser`, under an eager-no-rows store with no
matching row) fails with the no-rows error, not with an `Invalid`
error — the service methods perform no emptiness validation. -/
theorem deleteUser_empty_passport_not_invalid :
    (DeleteUser (some { users := [], tasks := [] }) "" "123").1 =
      .err .noRows ∧
    SvcErr.noRows.isInvalid = false := by
  exact ⟨by decide, rfl⟩

/-- C8 (amended).  `FindUserByPassport` — modelled from the spec, its
definition being absent from the sources — fails `Invalid` whenever
either passport string is empty and fails with the no-rows error when
both are non-empty but no user row matches; the `service.go` operations
that resolve the passport inline (e.g. `DeleteUser`) never validate
emptiness and, under an eager-no-rows store, fail with the no-rows
error for empty strings as well. -/
theorem findUserByPassport_validation :
    (∀ st s n, s = "" ∨ n = "" →
      FindUserByPassport st s n = .error (.invalid "invalid passport")) ∧
    (∀ db s n, db.fault = none → s ≠ "" → n ≠ "" →
      db.users.filter (userMatches s n) = [] →
      FindUserByPassport (some db) s n = .error .noRows) ∧
    (∀ db s n, db.fault = none → db.eager = true →
      db.users.filter (userMatches s n) = [] →
      (DeleteUser (some db) s n).1 = .err .noRows) := by
  refine ⟨?_, ?_, ?_⟩
  · intro st s n h
    unfold FindUserByPassport
    rw [if_pos h]
  · intro db s n hf hs hn hl
    unfold FindUserByPassport
    rw [if_neg (not_or.mpr ⟨hs, hn⟩)]
    rw [findUsersByFilter_limit_one db s n hf, hl]
    cases db.eager <;> rfl
  · intro db s n hf he hl
    unfold DeleteUser
    dsimp only
    rw [findUsersByFilter_limit_one db s n hf, hl, he]
    rfl

/-- C8 witness: the three amended behaviours at concrete inputs. -/
theorem findUserByPassport_validation_witness :
    FindUserByPassport (some { users := [], tasks := [] }) "" "123" =
      .error (.invalid "invalid passport") ∧
    FindUserByPassport (some { users := [], tasks := [] }) "AA" "999999" =
      .error .noRows ∧
    (DeleteUser (some { users := [], tasks := [] }) "AA" "999999").1 =
      .err .noRows := by
  refine ⟨?_, ?_, ?_⟩
  · exact findUserByPassport_validation.1
      (some { users := [], tasks := [] }) "" "123" (Or.inl rfl)
  · exact findUserByPassport_validation.2.1
      { users := [], tasks := [] } "AA" "999999" rfl
      (by decide) (by decide) rfl
  · exact findUserByPassport_validation.2.2
      { users := [], tasks := [] } "AA" "999999" rfl rfl rfl

/-- C10.  The `user[0]` access after `FindUsersByFilter` in the
passport-resolving operations is in bounds on every path that reaches
it provided the store reports zero matching rows eagerly as the
no-rows error: under that precondition an error-free
`FindUsersByFilter` always returns a non-empty list.  Under an
empty-cursor store (the pgx adapter's behaviour) the lookup returns an
empty list without error and every one of those operations ends in the
out-of-bounds panic instead of a `NotFound` error. -/
theorem findUsersByFilter_index_safety :
    (∀ db s n lim off users, db.eager = true →
      FindUsersByFilter (some db) s n lim off = .ok users → users ≠ []) ∧
    (∀ db s n, db.fault = none → db.eager = false →
      db.users.filter (userMatches s n) = [] →
      CalculateCostByUser (some db) s n 0 0 = .crash ∧
      (BeginTaskForUser (some db) s n 0 0).1 = .crash ∧
      (EndTaskForUser (some db) s n 0 0).1 = .crash ∧
      (DeleteUser (some db) s n).1 = .crash ∧
      (UpdateInfoUser (some db) s n (fun u => u)).1 = .crash) := by
  constructor
  · intro db s n lim off users he h
    unfold FindUsersByFilter at h
    dsimp only at h
    cases hsel : selectUsers db s n lim off with
    | error e' =>
      rw [hsel] at h
      cases e' <;> dsimp only at h <;> exact absurd h (by simp)
    | ok rows =>
      rw [hsel] at h
      dsimp only at h
      rw [Except.ok.injEq] at h
      subst h
      exact selectUsers_ok_eager_ne_nil he hsel
  · intro db s n hf he hl
    have hrun : FindUsersByFilter (some db) s n 1 0 = .ok [] := by
      rw [findUsersByFilter_limit_one db s n hf, hl, he]
      rfl
    refine ⟨?_, ?_, ?_, ?_, ?_⟩
    · unfold CalculateCostByUser
      rw [hrun]
    · unfold BeginTaskForUser
      rw [hrun]
    · unfold EndTaskForUser
      rw [hrun]
    · unfold DeleteUser
      rw [hrun]
    · unfold UpdateInfoUser
      rw [hrun]

/-- C10 witness: a found user under the eager store is a non-empty
list; the same lookup against the empty-cursor store drives
`DeleteUser` into the panic outcome. -/
theorem findUsersByFilter_index_safety_witness :
    ([{ id := 1, pasport_series := "AA", pasport_number := "1" }] : List User) ≠ [] ∧
    (DeleteUser (some { users := [], tasks := [], eager := false }) "AA" "1").1 =
      .crash := by
  constructor
  · exact findUsersByFilter_index_safety.1
      { users := [{ id := 1, pasport_series := "AA", pasport_number := "1" }],
        tasks := [] }
      "AA" "1" 1 0 _ rfl rfl
  · exact (findUsersByFilter_index_safety.2
      { users := [], tasks := [], eager := false } "AA" "1" rfl rfl rfl).2.2.2.1

end Timetracking
